import Mathlib

/-!
Verification development for the `albumconv` batch audio converter
(`src/main.rs`).  The program reads a CSV manifest of tracks, builds one
ffmpeg invocation per track (deterministic output naming, ordered metadata
arguments, optional cover-art attachment) and runs the conversions,
reporting an error on any failure.

The Rust code is shallowly embedded below: paths are modelled as `String`,
`u32` values as `Nat` (only decimal formatting and ranges matter here, and
the CSV parser model enforces the `u32` range), and the external process
execution is abstracted as an oracle `exec : List String → Option
ProcessOutput` (`none` models a spawn failure).  External library
behaviour that the program relies on (the `deunicode` transliteration
crate and CSV-with-serde manifest parsing) is modelled from those
libraries' documented semantics; each such definition says so in its doc
comment.
-/

namespace Albumconv

/-- Embedding of the `Track` struct deserialized from one CSV row:
`file: PathBuf`, `disc: Option<u32>`, `track: Option<u32>`,
`title: String`, `artist: Option<String>`.  Paths are modelled as strings
and `u32` as `Nat`. -/
structure Track where
  file : String
  disc : Option Nat
  track : Option Nat
  title : String
  artist : Option String
deriving Repr, DecidableEq

/-- Embedding of the clap-parsed `Args` struct (the conversion
configuration): optional input directory, cover path, album metadata
overrides, worker count, verbosity flag, manifest path and output
directory. -/
structure Args where
  input_dir : Option String
  cover : Option String
  album_title : Option String
  album_artist : Option String
  date : Option String
  threads : Option Nat
  verbose : Bool
  input_csv : String
  output_dir : String
deriving Repr, DecidableEq

deriving instance DecidableEq for Except

/-- Model of `PathBuf::join` on string paths: an absolute right operand
replaces the left; otherwise the two are joined with a `/` separator
(which is skipped when the left side already ends in one or is empty). -/
def path_join (dir file : String) : String :=
  if file.data.head? = some '/' then file
  else if dir = "" then file
  else if dir.data.getLast? = some '/' then dir ++ file
  else dir ++ "/" ++ file

/-- Model of the `deunicode` crate's per-character transliteration, from
the crate's documented semantics: ASCII code points are kept verbatim,
every non-ASCII code point is replaced by an ASCII approximation from the
crate's table (a representative fragment of which is reproduced here),
and code points without a table entry become the ASCII placeholder
`"[?]"`.  All replacement strings produced by the crate are pure ASCII. -/
def deunicodeChar (c : Char) : String :=
  if c.toNat < 128 then String.mk [c]
  else if c = 'é' then "e"
  else if c = 'è' then "e"
  else if c = 'á' then "a"
  else if c = 'ü' then "u"
  else if c = 'ñ' then "n"
  else if c = 'ß' then "ss"
  else if c = '€' then "EUR"
  else "[?]"

/-- Character-list level transliteration: concatenation of the
per-character replacements. -/
def deunicode_list : List Char → List Char
  | [] => []
  | c :: cs => (deunicodeChar c).data ++ deunicode_list cs

/-- Model of `deunicode::deunicode` (string level). -/
def deunicode (s : String) : String :=
  String.mk (deunicode_list s.data)

/-- Embedding of Rust's `format!("{n:02}")` for unsigned integers: the
decimal representation left-padded with zeros to a minimum width of two
digits. -/
def pad2 (n : Nat) : String :=
  if n < 10 then "0" ++ Nat.repr n else Nat.repr n

/-- The disc/track filename part computed in `convert_track`
(`src/main.rs:98-103`): `"{disc}.{track:02}-"` when both numbers are
present, `"{disc}-"` for disc only, `"{track:02}-"` for track only, and
the empty string when neither is set. -/
def num_pfx (disc track : Option Nat) : String :=
  match disc, track with
  | some d, some t => Nat.repr d ++ "." ++ pad2 t ++ "-"
  | some d, none => Nat.repr d ++ "-"
  | none, some t => pad2 t ++ "-"
  | none, none => ""

/-- The output file's base name computed in `convert_track`
(`src/main.rs:104-108`): the numeric part followed by the
deunicode-transliterated artist and title and the `.flac` suffix. -/
def output_basename (track : Track) (artist : String) : String :=
  num_pfx track.disc track.track ++ deunicode artist ++ "-" ++ deunicode track.title ++ ".flac"

/-- Embedding of `maybe_metadata` (`src/main.rs:72-77`): renders
`"{key}={val}"` when the optional value is present and the empty string
otherwise.  The `Display` rendering is `toString` (identity on strings,
decimal on naturals, exactly as in Rust). -/
def maybe_metadata {T : Type} [ToString T] (key : String) (val : Option T) : String :=
  match val with
  | some v => key ++ "=" ++ toString v
  | none => ""

/-- The `metadata` array built in `convert_track` (`src/main.rs:121-129`),
in source order: title, artist, album, album_artist, date, disc, track. -/
def metadata (args : Args) (track : Track) (artist : String) : List String :=
  [ "title=" ++ track.title,
    "artist=" ++ artist,
    maybe_metadata "album" args.album_title,
    maybe_metadata "album_artist" args.album_artist,
    maybe_metadata "date" args.date,
    maybe_metadata "disc" track.disc,
    maybe_metadata "track" track.track ]

/-- The metadata arguments actually passed to ffmpeg: the `metadata` array
with empty entries filtered out, as in
`metadata.iter().filter(|s| !s.is_empty())` (`src/main.rs:130`). -/
def metadata_args (args : Args) (track : Track) (artist : String) : List String :=
  (metadata args track artist).filter (fun s => !s.isEmpty)

/-- The full ffmpeg argument vector assembled by `convert_track`
(`src/main.rs:110-146`), mirroring the sequence of `cmd.arg`/`cmd.args`
calls; the metadata loop contributes `["-metadata", m]` per kept entry. -/
def ffmpeg_argv (args : Args) (track : Track) (artist input_file output_file : String) :
    List String :=
  ["-hide_banner", "-nostdin", "-i"] ++ [input_file]
  ++ (match args.cover with
      | some cover => ["-i", cover] ++ ["-map", "0:a", "-map", "1:v"]
      | none => ["-map", "0:a"])
  ++ (metadata_args args track artist).foldr (fun m acc => ["-metadata", m] ++ acc) []
  ++ (if args.cover.isSome then
        ["-c:v", "copy", "-disposition:v", "attached_pic", "-metadata:s:v",
         "comment=Cover (front)"]
      else [])
  ++ ["-c:a", "flac", "-y"]
  ++ [output_file]

/-- The fully resolved conversion job for one track: resolved input path,
effective artist, computed output path and the ffmpeg argument vector.
(The Rust code keeps these as locals of `convert_track`; they are
collected in a structure here so the pure job-construction part can be
stated about.) -/
structure Job where
  input_file : String
  artist : String
  output_file : String
  argv : List String
deriving Repr, DecidableEq

/-- The errors `convert_track` can produce: the missing-artist error
(`src/main.rs:90-96`), a spawn failure of the ffmpeg process
(`src/main.rs:152-154`), and a non-zero ffmpeg exit status with captured
output (`src/main.rs:159-175`). -/
inductive ConvertError where
  | missingArtist (file : String)
  | spawnFailed (argv : List String)
  | encodeFailed (infile outfile : String) (argv : List String) (out err : String)
deriving Repr, DecidableEq

/-- The pure job-construction part of `convert_track`
(`src/main.rs:81-146`): input-path resolution, artist fallback via
`Option::or`, output-name computation and argument assembly.  Fails with
`missingArtist` exactly when both the record artist and the configured
album artist are absent. -/
def build_job (args : Args) (track : Track) : Except ConvertError Job :=
  let input_file :=
    match args.input_dir with
    | some dir => path_join dir track.file
    | none => track.file
  match track.artist.or args.album_artist with
  | none => .error (.missingArtist track.file)
  | some artist =>
    let output_file := path_join args.output_dir (output_basename track artist)
    .ok { input_file := input_file,
          artist := artist,
          output_file := output_file,
          argv := ffmpeg_argv args track artist input_file output_file }

/-- Captured result of a finished ffmpeg process: exit-status success flag
and the captured standard output and standard error text. -/
structure ProcessOutput where
  success : Bool
  stdout : String
  stderr : String
deriving Repr, DecidableEq

/-- Full embedding of `Args::convert_track` (`src/main.rs:81-177`): build
the job, spawn ffmpeg through the `exec` oracle (`none` = spawn failure),
then return the output path on success or the diagnostic error on a
non-zero exit. -/
def convert_track (exec : List String → Option ProcessOutput) (args : Args) (track : Track) :
    Except ConvertError String :=
  match build_job args track with
  | .error e => .error e
  | .ok job =>
    match exec job.argv with
    | none => .error (.spawnFailed job.argv)
    | some out =>
      if out.success then .ok job.output_file
      else .error (.encodeFailed track.file job.output_file job.argv out.stdout out.stderr)

/-- The debug-formatted command line printed in verbose mode
(`src/main.rs:148-150`); the exact `Debug` rendering of `Command` is
modelled as the program name followed by the arguments. -/
def cmd_line (job : Job) : String :=
  "+ ffmpeg " ++ String.intercalate " " job.argv

/-- The log lines emitted by `convert_track` before execution: the
command line when `--verbose` is set, nothing otherwise
(`src/main.rs:148-150`). -/
def convert_logs (args : Args) (job : Job) : List String :=
  if args.verbose then [cmd_line job] else []

/-- The effective artist stored in a successfully built job, `none` when
job construction fails. -/
def built_artist (args : Args) (track : Track) : Option String :=
  match build_job args track with
  | .ok job => some job.artist
  | .error _ => none

/-- Whitespace test used by the manifest trimming: model of Rust
`char::is_whitespace` restricted to the common ASCII whitespace
characters (the claims do not depend on the rest of the Unicode
White_Space set). -/
def is_space (c : Char) : Bool :=
  c = ' ' || c = '\t' || c = '\n' || c = '\r'

/-- Trimming of leading and trailing whitespace at the character-list
level. -/
def trim_chars (l : List Char) : List Char :=
  ((l.dropWhile is_space).reverse.dropWhile is_space).reverse

/-- Model of the whitespace trimming the csv reader applies to every
header name and field value (`csv::Trim::All`, Rust `str::trim`). -/
def trim (s : String) : String :=
  String.mk (trim_chars s.data)

/-- Decimal digit test (`c` in `'0'..='9'`). -/
def is_digit (c : Char) : Bool :=
  decide (48 ≤ c.toNat) && decide (c.toNat ≤ 57)

/-- Model of Rust `str::parse::<u32>` restricted to the digits-only form
(the optional leading `+` sign is not modelled): `none` on an empty
string or any non-digit character, otherwise the decimal value.  The
caller checks the `u32` range. -/
def parse_decimal : List Char → Option Nat
  | [] => none
  | l =>
    l.foldl
      (fun acc? c => acc?.bind (fun acc =>
        if is_digit c then some (acc * 10 + (c.toNat - 48)) else none))
      (some 0)

/-- Manifest parse errors, modelling the failures of the `csv` crate with
serde deserialization into `Track` as configured in `run`
(`src/main.rs:191-206`): a row whose field count differs from the header
(`UnequalLengths`), a required column absent from the header
(serde `missing field`), and an unparsable `u32` value. -/
inductive ParseError where
  | unequalLengths
  | missingField (name : String)
  | invalidNumber (s : String)
deriving Repr, DecidableEq

/-- Header-keyed field access: the value of the first column whose
(trimmed) header name matches, `none` when the column is absent.  Models
how the csv-crate serde deserializer feeds fields by header name. -/
def fieldValue (header row : List String) (name : String) : Option String :=
  match header, row with
  | [], _ => none
  | _, [] => none
  | h :: hs, v :: vs => if h = name then some v else fieldValue hs vs name

/-- serde deserialization of a required string-like field (`file: PathBuf`,
`title: String`): fails when the column is absent from the header, accepts
any value (including the empty string). -/
def parseReqString (header row : List String) (name : String) : Except ParseError String :=
  match fieldValue header row name with
  | some v => .ok v
  | none => .error (.missingField name)

/-- serde deserialization of an `Option<String>` field (`artist`): an
absent column or an empty value becomes `none` (the csv crate maps empty
fields of `Option` types to `None`). -/
def parseOptString (header row : List String) (name : String) : Option String :=
  match fieldValue header row name with
  | some v => if v = "" then none else some v
  | none => none

/-- serde deserialization of an `Option<u32>` field (`disc`, `track`): an
absent column or an empty value becomes `none`; otherwise the value must
parse as a decimal `u32`. -/
def parseOptU32 (header row : List String) (name : String) : Except ParseError (Option Nat) :=
  match fieldValue header row name with
  | none => .ok none
  | some v =>
    if v = "" then .ok none
    else
      match parse_decimal v.data with
      | some n => if n < 2 ^ 32 then .ok (some n) else .error (.invalidNumber v)
      | none => .error (.invalidNumber v)

/-- Deserialization of one CSV record into a `Track`, modelling the csv
crate (non-flexible, so a row whose length differs from the header's is
an error) with serde.  Header names and field values are assumed already
trimmed (`Trim::All`), which `parseTracks` performs. -/
def parseTrack (header row : List String) : Except ParseError Track :=
  if row.length = header.length then
    match parseReqString header row "file" with
    | .error e => .error e
    | .ok file =>
      match parseOptU32 header row "disc" with
      | .error e => .error e
      | .ok disc =>
        match parseOptU32 header row "track" with
        | .error e => .error e
        | .ok tracknum =>
          match parseReqString header row "title" with
          | .error e => .error e
          | .ok title =>
            .ok { file := file, disc := disc, track := tracknum, title := title,
                  artist := parseOptString header row "artist" }
  else .error .unequalLengths

/-- The eager, all-or-nothing manifest parse in `run`
(`src/main.rs:198-203`): every field is whitespace-trimmed
(`csv::Trim::All`) and the records are collected into
`Result<Vec<Track>, _>`, which short-circuits at the first bad row. -/
def parseTracks (header : List String) (rows : List (List String)) :
    Except ParseError (List Track) :=
  rows.mapM (fun row => parseTrack (header.map trim) (row.map trim))

/-- The errors `run` can surface from the core: a manifest parse error or
a per-track conversion error. -/
inductive RunError where
  | parse (e : ParseError)
  | convert (e : ConvertError)
deriving Repr, DecidableEq

/-- Embedding of `run` (`src/main.rs:179-207`) restricted to the core
(manifest-file I/O, output-directory creation and thread-pool setup are
external shims): parse the whole manifest first, then convert every
track, stopping at a failed conversion, as
`tracks.par_iter().try_for_each(...)` does.  The parallel dispatch is
modelled by the sequential fold; which failing track's error is returned
when several fail concurrently is a property of rayon's scheduler and is
not modelled. -/
def run (exec : List String → Option ProcessOutput) (args : Args)
    (header : List String) (rows : List (List String)) : Except RunError Unit :=
  match parseTracks header rows with
  | .error e => .error (.parse e)
  | .ok tracks =>
    tracks.forM (fun t =>
      match convert_track exec args t with
      | .ok _ => .ok ()
      | .error e => .error (RunError.convert e))

/-- Abridged model of the `anyhow` alternate `Display` rendering of the
run errors, enough to carry each error's description text. -/
def error_text : RunError → String
  | .parse _ => "failed to parse CSV file"
  | .convert (.missingArtist file) => "Unable to determine artist for track " ++ file
  | .convert (.spawnFailed _) => "Failed to execute ffmpeg"
  | .convert (.encodeFailed infile outfile _ _ _) =>
    "failed to convert " ++ infile ++ " into " ++ outfile ++ ": ffmpeg command failed"

/-- The two standard output channels of the process. -/
inductive OutStream where
  | out
  | err
deriving Repr, DecidableEq

/-- Embedding of `main` (`src/main.rs:209-214`): on `Ok` the process
falls off the end of `main` (exit code 0, no error line); on `Err` it
prints `"Error: {err:#}"` with `println!` — that is, on standard output —
and exits with code 1. -/
def main_result (exec : List String → Option ProcessOutput) (args : Args)
    (header : List String) (rows : List (List String)) :
    Nat × Option (OutStream × String) :=
  match run exec args header rows with
  | .ok _ => (0, none)
  | .error e => (1, some (OutStream.out, "Error: " ++ error_text e))

/-- Whether an `Except` computation succeeded. -/
def is_ok {ε α : Type} : Except ε α → Bool
  | .ok _ => true
  | .error _ => false

/-- The one metadata argument contributed by an optional field: nothing
when the field is unset, `key=value` when it is set (used to state the
shape of the filtered metadata list). -/
def opt_arg {T : Type} [ToString T] (key : String) (val : Option T) : List String :=
  match val with
  | some v => [key ++ "=" ++ toString v]
  | none => []

/-- A fallback job value (used to totalize concrete job extraction). -/
def job0 : Job :=
  { input_file := "", artist := "", output_file := "", argv := [] }

/-- A neutral configuration: no cover, no album overrides, not verbose. -/
def args0 : Args :=
  { input_dir := none, cover := none, album_title := none, album_artist := none,
    date := none, threads := none, verbose := false, input_csv := "tracks.csv",
    output_dir := "out" }

/-- The manifest header in source-documented column order. -/
def std_header : List String :=
  ["file", "disc", "track", "title", "artist"]

/-- A record with no artist (and `args0` has no album artist). -/
def track0 : Track :=
  { file := "x.wav", disc := none, track := none, title := "T", artist := none }

/-- A record with no disc/track numbers. -/
def c1n_track : Track :=
  { file := "a.wav", disc := none, track := none, title := "T", artist := some "A" }

/-- A record whose artist is present but empty. -/
def c2x_track : Track :=
  { file := "a.wav", disc := none, track := none, title := "T", artist := some "" }

/-- A configuration with an album-artist override. -/
def c2x_args : Args := { args0 with album_artist := some "X" }

/-- A plain record with title `T` and artist `A`. -/
def c3_track : Track :=
  { file := "a.wav", disc := none, track := none, title := "T", artist := some "A" }

/-- A configuration whose album title is set to the empty string. -/
def c3x_args : Args := { args0 with album_title := some "" }

/-- A record carrying non-ASCII title and artist text. -/
def c4_track : Track :=
  { file := "a.wav", disc := none, track := none, title := "Tést", artist := some "ñu" }

/-- The job built for `c4_track` under the neutral configuration. -/
def c4_job : Job :=
  match build_job args0 c4_track with
  | .ok j => j
  | .error _ => job0

/-- A plain record used with the empty-date configuration. -/
def c5_track : Track :=
  { file := "a.wav", disc := none, track := none, title := "T", artist := some "A" }

/-- A configuration whose date is set to the empty string. -/
def c5x_args : Args := { args0 with date := some "" }

/-- A configuration with a cover image and an album title. -/
def c6_args : Args := { args0 with cover := some "cover.jpg", album_title := some "Album" }

/-- A record with disc and track numbers. -/
def c6_track : Track :=
  { file := "a.wav", disc := some 1, track := some 2, title := "Song", artist := some "A" }

/-- The job built for `c6_track` under the cover configuration. -/
def c6_job : Job :=
  match build_job c6_args c6_track with
  | .ok j => j
  | .error _ => job0

end Albumconv

namespace Albumconv

theorem isEmpty_cons (c : Char) (cs : List Char) : (String.mk (c :: cs)).isEmpty = false := by
  have h := Char.utf8Size_pos c
  simp [String.isEmpty, String.endPos, String.utf8ByteSize, String.utf8ByteSize.go,
    String.Pos.ext_iff]
  omega

theorem not_isEmpty_append (p v : String) (hp : p.data ≠ []) : (!(p ++ v).isEmpty) = true := by
  cases p with
  | mk l =>
    cases l with
    | nil => simp at hp
    | cons c cs =>
      cases v with
      | mk vd =>
        show (!(String.mk (c :: (cs ++ vd))).isEmpty) = true
        rw [isEmpty_cons]
        rfl

theorem filter_maybe_some {T : Type} [ToString T] (key : String) (v : T) (l : List String) :
    (maybe_metadata key (some v) :: l).filter (fun s => !s.isEmpty)
      = (key ++ "=" ++ toString v) :: l.filter (fun s => !s.isEmpty) := by
  rw [List.filter_cons]
  have h : (!(maybe_metadata key (some v)).isEmpty) = true := by
    show (!((key ++ "=") ++ toString v).isEmpty) = true
    apply not_isEmpty_append
    simp
  rw [if_pos h]
  rfl

theorem filter_maybe_none {T : Type} [ToString T] (key : String) (l : List String) :
    (maybe_metadata key (none : Option T) :: l).filter (fun s => !s.isEmpty)
      = l.filter (fun s => !s.isEmpty) := by
  rw [List.filter_cons]
  rfl

theorem filter_maybe {T : Type} [ToString T] (key : String) (v? : Option T) (l : List String) :
    (maybe_metadata key v? :: l).filter (fun s => !s.isEmpty)
      = opt_arg key v? ++ l.filter (fun s => !s.isEmpty) := by
  cases v? with
  | none => rw [filter_maybe_none]; rfl
  | some v => rw [filter_maybe_some]; rfl

theorem filter_cons_ne (s : String) (l : List String) (hs : s.data ≠ []) :
    (s :: l).filter (fun s => !s.isEmpty) = s :: l.filter (fun s => !s.isEmpty) := by
  rw [List.filter_cons]
  cases s with
  | mk d =>
    cases d with
    | nil => simp at hs
    | cons c cs => rw [if_pos (by rw [isEmpty_cons]; rfl)]

/-- Structural shape of the filtered metadata list: the title and artist
arguments always appear (in this order), followed by one `key=value`
argument for each set optional field, in the fixed order album,
album_artist, date, disc, track. -/
theorem metadata_args_eq (args : Args) (track : Track) (artist : String) :
    metadata_args args track artist =
      ["title=" ++ track.title, "artist=" ++ artist]
        ++ opt_arg "album" args.album_title
        ++ opt_arg "album_artist" args.album_artist
        ++ opt_arg "date" args.date
        ++ opt_arg "disc" track.disc
        ++ opt_arg "track" track.track := by
  unfold metadata_args metadata
  rw [filter_cons_ne _ _ (by simp), filter_cons_ne _ _ (by simp),
    filter_maybe, filter_maybe, filter_maybe, filter_maybe, filter_maybe]
  simp

theorem digitChar_ascii (n : Nat) : (Nat.digitChar n).toNat < 128 := by
  by_cases h : n < 16
  · interval_cases n <;> decide
  · have hne : ∀ m, m < 16 → n ≠ m := fun m hm => by omega
    unfold Nat.digitChar
    rw [if_neg (hne 0 (by decide)), if_neg (hne 1 (by decide)), if_neg (hne 2 (by decide)),
      if_neg (hne 3 (by decide)), if_neg (hne 4 (by decide)), if_neg (hne 5 (by decide)),
      if_neg (hne 6 (by decide)), if_neg (hne 7 (by decide)), if_neg (hne 8 (by decide)),
      if_neg (hne 9 (by decide)), if_neg (hne 10 (by decide)), if_neg (hne 11 (by decide)),
      if_neg (hne 12 (by decide)), if_neg (hne 13 (by decide)), if_neg (hne 14 (by decide)),
      if_neg (hne 15 (by decide))]
    decide

theorem toDigitsCore_ascii (b : Nat) (fuel : Nat) : ∀ (n : Nat) (ds : List Char),
    (∀ c ∈ ds, c.toNat < 128) → ∀ c ∈ Nat.toDigitsCore b fuel n ds, c.toNat < 128 := by
  induction fuel with
  | zero => intro n ds hds c hc; exact hds c hc
  | succ fuel ih =>
    intro n ds hds c hc
    simp only [Nat.toDigitsCore] at hc
    split at hc
    · rcases List.mem_cons.mp hc with h | h
      · subst h; exact digitChar_ascii _
      · exact hds c h
    · refine ih _ _ ?_ c hc
      intro d hd
      rcases List.mem_cons.mp hd with h | h
      · subst h; exact digitChar_ascii _
      · exact hds d h

theorem repr_ascii (n : Nat) : ∀ c ∈ (Nat.repr n).data, c.toNat < 128 := by
  intro c hc
  exact toDigitsCore_ascii 10 (n + 1) n [] (by simp) c hc

theorem toDigitsCore_ne_nil : ∀ (fuel n : Nat) (ds : List Char),
    Nat.toDigitsCore 10 (fuel + 1) n ds ≠ [] := by
  intro fuel
  induction fuel with
  | zero =>
    intro n ds
    simp only [Nat.toDigitsCore]
    split <;> simp
  | succ fuel ih =>
    intro n ds
    simp only [Nat.toDigitsCore]
    split
    · simp
    · exact ih _ _

theorem repr_ne_nil (n : Nat) : (Nat.repr n).data ≠ [] := toDigitsCore_ne_nil n n []

theorem ascii_append {a b : String} (ha : ∀ c ∈ a.data, c.toNat < 128)
    (hb : ∀ c ∈ b.data, c.toNat < 128) : ∀ c ∈ (a ++ b).data, c.toNat < 128 := by
  intro c hc
  rw [String.data_append] at hc
  rcases List.mem_append.mp hc with h | h
  exacts [ha c h, hb c h]

theorem deunicodeChar_ascii (c : Char) : ∀ d ∈ (deunicodeChar c).data, d.toNat < 128 := by
  unfold deunicodeChar
  split
  · rename_i h
    intro d hd
    rcases List.mem_singleton.mp hd with rfl
    exact h
  · split
    · decide
    · split
      · decide
      · split
        · decide
        · split
          · decide
          · split
            · decide
            · split
              · decide
              · split <;> decide

theorem deunicode_list_ascii (l : List Char) : ∀ c ∈ deunicode_list l, c.toNat < 128 := by
  induction l with
  | nil => simp [deunicode_list]
  | cons c cs ih =>
    intro d hd
    unfold deunicode_list at hd
    rcases List.mem_append.mp hd with h | h
    · exact deunicodeChar_ascii c d h
    · exact ih d h

theorem deunicode_ascii (s : String) : ∀ c ∈ (deunicode s).data, c.toNat < 128 :=
  deunicode_list_ascii s.data

theorem deunicodeChar_of_ascii {c : Char} (h : c.toNat < 128) :
    deunicodeChar c = String.mk [c] := by
  unfold deunicodeChar
  rw [if_pos h]

theorem deunicode_list_fixed {l : List Char} (h : ∀ c ∈ l, c.toNat < 128) :
    deunicode_list l = l := by
  induction l with
  | nil => rfl
  | cons c cs ih =>
    unfold deunicode_list
    rw [deunicodeChar_of_ascii (h c (List.mem_cons_self c cs))]
    rw [ih (fun d hd => h d (List.mem_cons_of_mem c hd))]
    rfl

theorem deunicode_idem (s : String) : deunicode (deunicode s) = deunicode s := by
  show String.mk (deunicode_list (deunicode_list s.data)) = String.mk (deunicode_list s.data)
  rw [deunicode_list_fixed (deunicode_list_ascii s.data)]

theorem pad2_ascii (t : Nat) : ∀ c ∈ (pad2 t).data, c.toNat < 128 := by
  unfold pad2
  split
  · exact ascii_append (by decide) (repr_ascii t)
  · exact repr_ascii t

theorem num_pfx_ascii (disc track : Option Nat) :
    ∀ c ∈ (num_pfx disc track).data, c.toNat < 128 := by
  unfold num_pfx
  rcases disc with _ | d <;> rcases track with _ | t
  · decide
  · exact ascii_append (pad2_ascii t) (by decide)
  · exact ascii_append (repr_ascii d) (by decide)
  · exact ascii_append (ascii_append (ascii_append (repr_ascii d) (by decide)) (pad2_ascii t))
      (by decide)

theorem output_basename_ascii (track : Track) (artist : String) :
    ∀ c ∈ (output_basename track artist).data, c.toNat < 128 := by
  unfold output_basename
  exact ascii_append
    (ascii_append
      (ascii_append (ascii_append (num_pfx_ascii track.disc track.track) (deunicode_ascii artist))
        (by decide))
      (deunicode_ascii track.title))
    (by decide)

theorem pad2_two_digits :
    ∀ t, t < 100 → pad2 t = String.mk [Nat.digitChar (t / 10), Nat.digitChar (t % 10)] := by
  decide

theorem build_job_ok {args : Args} {track : Track} {job : Job}
    (h : build_job args track = .ok job) :
    track.artist.or args.album_artist = some job.artist ∧
      job.input_file = (match args.input_dir with
        | some dir => path_join dir track.file
        | none => track.file) ∧
      job.output_file = path_join args.output_dir (output_basename track job.artist) ∧
      job.argv = ffmpeg_argv args track job.artist job.input_file job.output_file := by
  unfold build_job at h
  cases ho : track.artist.or args.album_artist with
  | none => rw [ho] at h; cases h
  | some a =>
    rw [ho] at h
    cases h
    exact ⟨rfl, rfl, rfl, rfl⟩

theorem foldr_metadata_flat (l : List String) :
    l.foldr (fun m acc => ["-metadata", m] ++ acc) []
      = (l.map (fun m => ["-metadata", m])).flatten := by
  induction l with
  | nil => rfl
  | cons x xs ih => rw [List.foldr_cons, ih]; simp

theorem mem_foldr_metadata {m : String} {l : List String} (h : m ∈ l) :
    m ∈ l.foldr (fun m acc => ["-metadata", m] ++ acc) [] := by
  induction l with
  | nil => cases h
  | cons x xs ih =>
    rcases List.mem_cons.mp h with rfl | h'
    · exact List.mem_cons_of_mem _ (List.mem_cons_self _ _)
    · exact List.mem_cons_of_mem _ (List.mem_cons_of_mem _ (ih h'))

end Albumconv

namespace Albumconv

theorem fieldValue_mem {header row : List String} {name v : String}
    (h : fieldValue header row name = some v) : name ∈ header := by
  induction header generalizing row with
  | nil => simp [fieldValue] at h
  | cons hd tl ih =>
    cases row with
    | nil => simp [fieldValue] at h
    | cons v0 vs =>
      unfold fieldValue at h
      split at h
      · rename_i heq; exact heq ▸ List.mem_cons_self _ _
      · exact List.mem_cons_of_mem _ (ih h)

theorem parseReqString_ok {header row : List String} {name v : String}
    (h : parseReqString header row name = .ok v) : fieldValue header row name = some v := by
  unfold parseReqString at h
  split at h
  · rename_i heq; cases h; exact heq
  · cases h

theorem parseTrack_ok_mem {header row : List String} {t : Track}
    (h : parseTrack header row = .ok t) : "file" ∈ header ∧ "title" ∈ header := by
  unfold parseTrack at h
  split at h
  · split at h
    · cases h
    · rename_i file hfile
      split at h
      · cases h
      · split at h
        · cases h
        · split at h
          · cases h
          · rename_i title htitle
            exact ⟨fieldValue_mem (parseReqString_ok hfile),
              fieldValue_mem (parseReqString_ok htitle)⟩
  · cases h

theorem parseTracks_cons_error {header r : List String} {rs : List (List String)} {e : ParseError}
    (h : parseTrack (header.map trim) (r.map trim) = .error e) :
    parseTracks header (r :: rs) = .error e := by
  unfold parseTracks
  rw [List.mapM_cons, h]
  rfl

theorem parseTracks_missing_title {header r : List String} {rs : List (List String)}
    (hmem : "title" ∉ header.map trim) :
    is_ok (parseTracks header (r :: rs)) = false := by
  cases hp : parseTrack (header.map trim) (r.map trim) with
  | error e => rw [parseTracks_cons_error hp]; rfl
  | ok t => exact absurd (parseTrack_ok_mem hp).2 hmem

theorem parseTracks_missing_file {header r : List String} {rs : List (List String)}
    (hmem : "file" ∉ header.map trim) :
    is_ok (parseTracks header (r :: rs)) = false := by
  cases hp : parseTrack (header.map trim) (r.map trim) with
  | error e => rw [parseTracks_cons_error hp]; rfl
  | ok t => exact absurd (parseTrack_ok_mem hp).1 hmem

theorem parseTrack_bad_length {header row : List String} (h : row.length ≠ header.length) :
    parseTrack (header.map trim) (row.map trim) = .error .unequalLengths := by
  unfold parseTrack
  rw [if_neg]
  simpa using h

theorem run_parse_error {exec : List String → Option ProcessOutput} {args : Args}
    {header : List String} {rows : List (List String)} {e : ParseError}
    (h : parseTracks header rows = .error e) :
    run exec args header rows = .error (.parse e) := by
  unfold run
  rw [h]

theorem forM_conv_ok {f : Track → Except RunError Unit} {l : List Track} :
    l.forM f = .ok () ↔ ∀ t ∈ l, is_ok (f t) = true := by
  induction l with
  | nil => simp [List.forM, is_ok]; rfl
  | cons x xs ih =>
    show (f x >>= fun _ => xs.forM f) = .ok () ↔ _
    cases hf : f x with
    | error e =>
      constructor
      · intro h; exact Except.noConfusion h
      · intro h
        have hx := h x (List.mem_cons_self _ _)
        rw [hf] at hx
        cases hx
    | ok u =>
      constructor
      · intro h t ht
        rcases List.mem_cons.mp ht with rfl | ht'
        · rw [hf]; rfl
        · exact ih.mp h t ht'
      · intro h
        exact ih.mpr (fun t ht => h t (List.mem_cons_of_mem _ ht))

end Albumconv

namespace Albumconv

theorem run_ok_iff {exec : List String → Option ProcessOutput} {args : Args}
    {header : List String} {rows : List (List String)} :
    run exec args header rows = .ok () ↔
      ∃ tracks, parseTracks header rows = .ok tracks ∧
        ∀ t ∈ tracks, is_ok (convert_track exec args t) = true := by
  unfold run
  cases hp : parseTracks header rows with
  | error e =>
    constructor
    · intro h; exact Except.noConfusion h
    · rintro ⟨ts, hts, -⟩
      exact Except.noConfusion hts
  | ok ts =>
    constructor
    · intro h
      refine ⟨ts, rfl, fun t ht => ?_⟩
      have hm := forM_conv_ok.mp h t ht
      cases hc : convert_track exec args t with
      | ok s => rfl
      | error e =>
        rw [hc] at hm
        exact Bool.noConfusion hm
    · rintro ⟨ts', hts', hall⟩
      injection hts' with hts'
      subst hts'
      apply forM_conv_ok.mpr
      intro t ht
      have hx := hall t ht
      cases hc : convert_track exec args t with
      | ok s => rfl
      | error e =>
        rw [hc] at hx
        exact Bool.noConfusion hx

end Albumconv

namespace Albumconv

/-- Claim C1: for a record with both disc and track numbers the filename
part before the artist is exactly `"{disc}.{track:02}-"` (track
zero-padded to two digits, disc unpadded); with disc only it is
`"{disc}-"`; with track only `"{track:02}-"`; with neither it is empty
and the output file base name is `"{artist}-{title}.flac"` (artist and
title as sanitized for the filename). -/
theorem c1_filename_shape :
    (∀ d t : Nat, num_pfx (some d) (some t) = Nat.repr d ++ "." ++ pad2 t ++ "-") ∧
    (∀ d : Nat, num_pfx (some d) none = Nat.repr d ++ "-") ∧
    (∀ t : Nat, num_pfx none (some t) = pad2 t ++ "-") ∧
    num_pfx none none = "" ∧
    (∀ t : Nat, t < 100 →
      pad2 t = String.mk [Nat.digitChar (t / 10), Nat.digitChar (t % 10)]) ∧
    (∀ t : Nat, 10 ≤ t → pad2 t = Nat.repr t) ∧
    (∀ (track : Track) (artist : String),
      output_basename track artist =
        num_pfx track.disc track.track
          ++ (deunicode artist ++ "-" ++ deunicode track.title ++ ".flac")) ∧
    (∀ (track : Track) (artist : String), track.disc = none → track.track = none →
      output_basename track artist =
        deunicode artist ++ "-" ++ deunicode track.title ++ ".flac") := by
  refine ⟨fun d t => rfl, fun d => rfl, fun t => rfl, rfl, pad2_two_digits, ?_, ?_, ?_⟩
  · intro t ht
    unfold pad2
    rw [if_neg (by omega)]
  · intro track artist
    unfold output_basename
    apply String.ext
    simp
  · intro track artist h1 h2
    unfold output_basename
    rw [h1, h2]
    apply String.ext
    simp [num_pfx]

/-- Witness for C1 at disc 1, track 3 and at a record with neither
number set. -/
theorem c1_witness :
    pad2 3 = String.mk [Nat.digitChar (3 / 10), Nat.digitChar (3 % 10)] ∧
      output_basename c1n_track "A" = deunicode "A" ++ "-" ++ deunicode "T" ++ ".flac" :=
  ⟨c1_filename_shape.2.2.2.2.1 3 (by decide),
    c1_filename_shape.2.2.2.2.2.2.2 c1n_track "A" rfl rfl⟩

end Albumconv

namespace Albumconv

/-- Claim C2 (amended): the effective artist is the record artist when
present (even when it is the empty string), otherwise the configured
album artist when present (even when empty); job construction fails with
the missing-artist error naming the record file — before any encoder
process is spawned — exactly when both are absent. -/
theorem c2_artist_fallback (args : Args) (track : Track) :
    (∀ a, track.artist = some a → built_artist args track = some a) ∧
    (track.artist = none → ∀ b, args.album_artist = some b → built_artist args track = some b) ∧
    (track.artist = none → args.album_artist = none →
      ∀ exec, convert_track exec args track = .error (.missingArtist track.file)) := by
  refine ⟨?_, ?_, ?_⟩
  · intro a ha
    unfold built_artist build_job
    rw [ha]
    rfl
  · intro h0 b hb
    unfold built_artist build_job
    rw [h0, hb]
    rfl
  · intro h0 hb exec
    unfold convert_track build_job
    rw [h0, hb]
    rfl

/-- Witness for C2: a record with no artist under a configuration with no
album artist fails with the missing-artist error for every execution
oracle. -/
theorem c2_witness :
    convert_track (fun _ => none) args0 track0 = .error (.missingArtist "x.wav") :=
  (c2_artist_fallback args0 track0).2.2 rfl rfl (fun _ => none)

/-- Counterexample to C2 as stated: a record whose artist is present but
empty does NOT fall back to the configured album artist `"X"` and does
not fail — the empty string is used as the effective artist. -/
theorem c2_counterexample :
    c2x_track.artist = some "" ∧ c2x_args.album_artist = some "X" ∧
      built_artist c2x_args c2x_track = some "" ∧
      built_artist c2x_args c2x_track ≠ some "X" := by
  decide

/-- Claim C3 (amended): unset (`None`) optional fields are omitted from
the metadata argument list entirely (with every optional field unset only
the title and artist arguments remain); but a field set to the empty
string IS emitted as an empty-valued `key=` argument. -/
theorem c3_unset_omitted (args : Args) (track : Track) (artist : String) :
    (args.album_title = none → args.album_artist = none → args.date = none →
      track.disc = none → track.track = none →
      metadata_args args track artist = ["title=" ++ track.title, "artist=" ++ artist]) ∧
    (args.album_title = some "" → "album=" ∈ metadata_args args track artist) := by
  constructor
  · intro h1 h2 h3 h4 h5
    rw [metadata_args_eq, h1, h2, h3, h4, h5]
    simp [opt_arg]
  · intro h
    rw [metadata_args_eq, h]
    simp [opt_arg]
    exact Or.inr (Or.inr (Or.inl (by decide)))

/-- Witness for C3: with every optional field unset only the title and
artist arguments appear; with an empty-string album title the argument
`album=` appears. -/
theorem c3_witness :
    metadata_args args0 c3_track "A" = ["title=" ++ "T", "artist=" ++ "A"] ∧
      "album=" ∈ metadata_args c3x_args c3_track "A" :=
  ⟨(c3_unset_omitted args0 c3_track "A").1 rfl rfl rfl rfl rfl,
    (c3_unset_omitted c3x_args c3_track "A").2 rfl⟩

/-- Counterexample to C3 as stated: with the album title set to the empty
string the metadata list contains the empty-valued argument `album=`. -/
theorem c3_counterexample :
    c3x_args.album_title = some "" ∧ "album=" ∈ metadata_args c3x_args c3_track "A" := by
  decide

/-- Claim C4: filename sanitization is idempotent and produces only ASCII
characters; the whole computed file base name is ASCII; and the job's
metadata arguments keep the original (unsanitized) title and artist text,
sanitization applying only to the output path. -/
theorem c4_sanitize_filename_only :
    (∀ s, deunicode (deunicode s) = deunicode s) ∧
    (∀ s, ∀ c ∈ (deunicode s).data, c.toNat < 128) ∧
    (∀ (track : Track) (artist : String),
      ∀ c ∈ (output_basename track artist).data, c.toNat < 128) ∧
    (∀ (args : Args) (track : Track) (job : Job), build_job args track = .ok job →
      ("title=" ++ track.title) ∈ job.argv ∧ ("artist=" ++ job.artist) ∈ job.argv ∧
      job.output_file = path_join args.output_dir (output_basename track job.artist)) := by
  refine ⟨deunicode_idem, deunicode_ascii, output_basename_ascii, ?_⟩
  intro args track job h
  obtain ⟨-, -, hout, hargv⟩ := build_job_ok h
  refine ⟨?_, ?_, hout⟩
  · have hmem : ("title=" ++ track.title) ∈ metadata_args args track job.artist := by
      rw [metadata_args_eq]; simp
    have hf := mem_foldr_metadata hmem
    rw [hargv]
    unfold ffmpeg_argv
    simp only [List.mem_append]
    tauto
  · have hmem : ("artist=" ++ job.artist) ∈ metadata_args args track job.artist := by
      rw [metadata_args_eq]; simp
    have hf := mem_foldr_metadata hmem
    rw [hargv]
    unfold ffmpeg_argv
    simp only [List.mem_append]
    tauto

/-- Witness for C4: the non-ASCII title `Tést` is kept verbatim in the
metadata arguments of the built job. -/
theorem c4_witness :
    build_job args0 c4_track = .ok c4_job ∧ ("title=" ++ c4_track.title) ∈ c4_job.argv :=
  ⟨by decide, (c4_sanitize_filename_only.2.2.2 args0 c4_track c4_job (by decide)).1⟩

end Albumconv

namespace Albumconv

/-- Claim C5 (amended): the metadata arguments appear in the fixed order
title, artist, album, album_artist, date, disc, track, with exactly one
argument per SET field — the title and resolved artist always, each
optional field exactly when it is set, including fields set to the empty
string. -/
theorem c5_metadata_order (args : Args) (track : Track) (artist : String) :
    metadata_args args track artist =
      ["title=" ++ track.title, "artist=" ++ artist]
        ++ opt_arg "album" args.album_title
        ++ opt_arg "album_artist" args.album_artist
        ++ opt_arg "date" args.date
        ++ opt_arg "disc" track.disc
        ++ opt_arg "track" track.track :=
  metadata_args_eq args track artist

/-- Counterexample to C5 as stated: with the date set to the empty string
there are three metadata arguments but only two non-empty values — the
empty-valued `date=` argument is emitted. -/
theorem c5_counterexample :
    c5x_args.date = some "" ∧
      metadata_args c5x_args c5_track "A" = ["title=T", "artist=A", "date="] ∧
      metadata_args c5x_args c5_track "A" ≠ ["title=T", "artist=A"] := by
  decide

/-- Claim C6: the encoder argument list of every built job has the fixed
shape — banner/prompt-suppression flags, primary input; the cover as
secondary input with audio/video stream maps when configured, else a
single audio map; the metadata arguments; the cover copy, disposition and
fixed comment tag when configured; the forced lossless codec and
overwrite flag; and the output path last. -/
theorem c6_argv_shape (args : Args) (track : Track) (job : Job)
    (h : build_job args track = .ok job) :
    job.argv =
      ["-hide_banner", "-nostdin", "-i", job.input_file]
        ++ (match args.cover with
            | some cover => ["-i", cover, "-map", "0:a", "-map", "1:v"]
            | none => ["-map", "0:a"])
        ++ ((metadata_args args track job.artist).map (fun m => ["-metadata", m])).flatten
        ++ (if args.cover.isSome then
              ["-c:v", "copy", "-disposition:v", "attached_pic", "-metadata:s:v",
               "comment=Cover (front)"]
            else [])
        ++ ["-c:a", "flac", "-y", job.output_file] ∧
      job.argv.getLast? = some job.output_file := by
  obtain ⟨-, -, -, hargv⟩ := build_job_ok h
  constructor
  · rw [hargv]
    unfold ffmpeg_argv
    rw [foldr_metadata_flat]
    cases args.cover <;> simp
  · rw [hargv]
    unfold ffmpeg_argv
    rw [List.getLast?_concat]

/-- Witness for C6: the full explicit argument vector of a job with a
cover image, disc 1 and track 2. -/
theorem c6_witness :
    build_job c6_args c6_track = .ok c6_job ∧
      c6_job.argv =
        ["-hide_banner", "-nostdin", "-i", "a.wav", "-i", "cover.jpg", "-map", "0:a",
         "-map", "1:v", "-metadata", "title=Song", "-metadata", "artist=A", "-metadata",
         "album=Album", "-metadata", "disc=1", "-metadata", "track=2", "-c:v", "copy",
         "-disposition:v", "attached_pic", "-metadata:s:v", "comment=Cover (front)",
         "-c:a", "flac", "-y", "out/1.02-A-Song.flac"] := by
  refine ⟨by decide, ?_⟩
  rw [(c6_argv_shape c6_args c6_track c6_job (by decide)).1]
  decide

/-- Claim C7 (amended): a manifest whose header lacks the `file` or
`title` column, or a row whose field count differs from the header's, is
a hard parse failure; parsing is eager and all-or-nothing, and a parse
failure aborts the run (for every execution oracle) before any
conversion.  (A present-but-empty `title` value, however, parses
successfully.) -/
theorem c7_parse_eager (header : List String) :
    (∀ r rs, "title" ∉ header.map trim → is_ok (parseTracks header (r :: rs)) = false) ∧
    (∀ r rs, "file" ∉ header.map trim → is_ok (parseTracks header (r :: rs)) = false) ∧
    (∀ (r : List String) rs, r.length ≠ header.length →
      parseTracks header (r :: rs) = .error .unequalLengths) ∧
    (∀ exec args rows e, parseTracks header rows = .error e →
      run exec args header rows = .error (.parse e)) :=
  ⟨fun _ _ h => parseTracks_missing_title h,
    fun _ _ h => parseTracks_missing_file h,
    fun _ _ h => parseTracks_cons_error (parseTrack_bad_length h),
    fun _ _ _ _ h => run_parse_error h⟩

/-- Witness for C7: a manifest without a `title` column fails to parse,
and a short row aborts the whole run with the parse error. -/
theorem c7_witness :
    is_ok (parseTracks ["file", "disc", "track", "artist"] [["a.wav", "", "", ""]]) = false ∧
      run (fun _ => none) args0 ["file"] [["a", "b"]] = .error (.parse .unequalLengths) :=
  ⟨(c7_parse_eager _).1 _ [] (by decide),
    (c7_parse_eager _).2.2.2 _ args0 _ _ ((c7_parse_eager _).2.2.1 _ [] (by decide))⟩

/-- Counterexample to C7 as stated: a row whose `title` value is present
but empty parses successfully into a record with an empty title — parse
does not fail, so not every parsed record has a non-empty title. -/
theorem c7_counterexample :
    parseTracks std_header [["a.wav", "", "", "", ""]]
      = .ok [{ file := "a.wav", disc := none, track := none, title := "", artist := none }] := by
  decide

/-- Claim C9 (amended): the exit code is 0 exactly when the run succeeded
— the manifest parsed and every job converted successfully; on any
failure the exit code is 1 and the error description is written to
STANDARD OUTPUT (not the error stream). -/
theorem c9_exit_code (exec : List String → Option ProcessOutput) (args : Args)
    (header : List String) (rows : List (List String)) :
    ((main_result exec args header rows).1 = 0 ↔ run exec args header rows = .ok ()) ∧
    (run exec args header rows = .ok () ↔
      ∃ tracks, parseTracks header rows = .ok tracks ∧
        ∀ t ∈ tracks, is_ok (convert_track exec args t) = true) ∧
    (∀ e, run exec args header rows = .error e →
      main_result exec args header rows
        = (1, some (OutStream.out, "Error: " ++ error_text e))) := by
  refine ⟨?_, run_ok_iff, ?_⟩
  · unfold main_result
    cases h : run exec args header rows with
    | ok u => cases u; simp
    | error e => simp
  · intro e h
    unfold main_result
    rw [h]

/-- Witness for C9: a run failing with the missing-artist error exits 1
and prints the description on standard output. -/
theorem c9_witness :
    main_result (fun _ => none) args0 std_header [["x.wav", "", "", "T", ""]]
      = (1, some (OutStream.out,
          "Error: " ++ error_text (.convert (.missingArtist "x.wav")))) :=
  (c9_exit_code (fun _ => none) args0 std_header [["x.wav", "", "", "T", ""]]).2.2
    (.convert (.missingArtist "x.wav")) (by decide)

/-- Counterexample to C9 as stated: on failure the error line is emitted
on standard output, which is not the error stream. -/
theorem c9_counterexample :
    main_result (fun _ => none) args0 std_header [["x.wav", "", "", "T", ""]]
      = (1, some (OutStream.out, "Error: Unable to determine artist for track x.wav")) ∧
      OutStream.out ≠ OutStream.err := by
  decide

/-- Claim C10: the built job (hence the argument vector and output path)
and the conversion result are identical whether or not the verbose flag
is set; verbosity only adds the logged command line before execution. -/
theorem c10_verbose_noninterference (args : Args) (track : Track)
    (exec : List String → Option ProcessOutput) (b₁ b₂ : Bool) :
    build_job { args with verbose := b₁ } track = build_job { args with verbose := b₂ } track ∧
    convert_track exec { args with verbose := b₁ } track
      = convert_track exec { args with verbose := b₂ } track ∧
    (∀ job : Job, convert_logs { args with verbose := true } job
      = cmd_line job :: convert_logs { args with verbose := false } job) :=
  ⟨rfl, rfl, fun _ => rfl⟩

end Albumconv
